import Mathlib

/-!
Verification of the ask-finance agent orchestration engine.

The definitions below are shallow embeddings of the TypeScript source:
  - finance-agent.ts      : tool registry, tool executors, executeTool dispatch,
                            streamFinanceChat tool-calling loop
  - app/api/chat/route.ts : request handling, message assembly, SSE event stream
  - orchestrator.ts       : FinancialOrchestrator.analyze, ReportEvaluator
External network calls (the reasoning model, the vector store, image
generation) are modelled as oracle parameters; a thrown JS exception is
modelled as Except.error carrying the message.
-/

deriving instance DecidableEq for Except

namespace AskFinance

/-! ## String utilities

JS string operations are modelled over List Char.  JS regular expressions in
the source are all of the shape open-tag .. close-tag with a lazy body, which
on the inputs at hand is exactly: first occurrence of the open tag, then the
body up to the first occurrence of the close tag after it. -/

/-- Whitespace as recognised by the JS trim and regex \s (ASCII fragment). -/
def isWsChar (c : Char) : Bool :=
  c == ' ' || c == '\n' || c == '\t' || c == '\r'

/-- Models the JS String.prototype.trim function. -/
def jsTrim (s : String) : String :=
  String.mk (((s.data.dropWhile isWsChar).reverse.dropWhile isWsChar).reverse)

/-- Is pat a prefix of cs, by characters. -/
def charsPrefixOf : List Char → List Char → Bool
  | [], _ => true
  | _ :: _, [] => false
  | a :: as, b :: bs => a == b && charsPrefixOf as bs

/-- Index of the first occurrence of pat in cs, if any. -/
def findSub (pat : List Char) : List Char → Option Nat
  | [] => if pat.isEmpty then some 0 else none
  | c :: rest =>
    if charsPrefixOf pat (c :: rest) then some 0
    else (findSub pat rest).map (· + 1)

/-- Body of the first tagOpen .. tagClose region, untrimmed; none when the
regex would fail to match. -/
def matchTagMulti (tagOpen tagClose : String) (cs : List Char) : Option (List Char) :=
  match findSub tagOpen.data cs with
  | none => none
  | some i =>
    let rest := cs.drop (i + tagOpen.data.length)
    match findSub tagClose.data rest with
    | none => none
    | some j => some (rest.take j)

/-- Same as matchTagMulti but the body may not span lines: models a regex
whose body is a lazy dot, which does not match a newline. -/
def matchTagLine (tagOpen tagClose : String) (cs : List Char) : Option (List Char) :=
  match matchTagMulti tagOpen tagClose cs with
  | none => none
  | some body => if body.contains '\n' then none else some body

/-- Models extractXml from orchestrator.ts and document-analyzer.ts: the body
of the first tag region, trimmed; the empty string when there is no match. -/
def extractXml (content tag : String) : String :=
  match matchTagMulti ("<" ++ tag ++ ">") ("</" ++ tag ++ ">") content.data with
  | none => ""
  | some body => jsTrim (String.mk body)

/-- Left brace character, written via its code point. -/
def lbrace : Char := Char.ofNat 123

/-- Right brace character, written via its code point. -/
def rbrace : Char := Char.ofNat 125

/-- Drop leading JSON whitespace. -/
def skipWs : List Char → List Char
  | [] => []
  | c :: cs => if isWsChar c then skipWs cs else c :: cs

/-- Accumulate leading decimal digits into acc. -/
def parseNatDigitsAux (acc : Nat) : List Char → Nat × List Char
  | [] => (acc, [])
  | c :: cs =>
    if c.isDigit then parseNatDigitsAux (acc * 10 + (c.toNat - '0'.toNat)) cs
    else (acc, c :: cs)

/-- Leading decimal digits, if any. -/
def parseNatDigits : List Char → Option (Nat × List Char)
  | [] => none
  | c :: cs =>
    if c.isDigit then some (parseNatDigitsAux (c.toNat - '0'.toNat) cs) else none

/-- Leading integer token: optional sign then digits. -/
def parseIntTok : List Char → Option (Int × List Char)
  | [] => none
  | c :: cs =>
    if c == '-' then (parseNatDigits cs).map (fun p => (-(p.1 : Int), p.2))
    else if c == '+' then (parseNatDigits cs).map (fun p => ((p.1 : Int), p.2))
    else (parseNatDigits (c :: cs)).map (fun p => ((p.1 : Int), p.2))

/-- Models the JS parseInt applied to an already trimmed string: none models
the NaN result. -/
def jsParseInt (s : String) : Option Int :=
  (parseIntTok (s.data.dropWhile isWsChar)).map Prod.fst

/-- Body of a double-quoted string literal without escapes, plus the rest. -/
def takeQuoted : List Char → Option (List Char × List Char)
  | [] => none
  | c :: cs =>
    if c == '"' then some ([], cs)
    else (takeQuoted cs).map (fun p => (c :: p.1, p.2))

/-- Members of a flat JSON object after the opening brace: a comma-separated
list of string keys and integer values, consuming the closing brace. -/
def parseMembersAux : Nat → List Char → Option (List (String × Int) × List Char)
  | 0, _ => none
  | fuel + 1, cs =>
    match skipWs cs with
    | [] => none
    | c :: cs0 =>
      if c == '"' then
        match takeQuoted cs0 with
        | none => none
        | some (key, cs1) =>
          match skipWs cs1 with
          | ':' :: cs2 =>
            match parseIntTok (skipWs cs2) with
            | none => none
            | some (v, cs3) =>
              match skipWs cs3 with
              | ',' :: cs4 =>
                (parseMembersAux fuel cs4).map
                  (fun p => ((String.mk key, v) :: p.1, p.2))
              | c5 :: cs5 =>
                if c5 == rbrace then some ([(String.mk key, v)], cs5) else none
              | [] => none
          | _ => none
      else none

/-- Models JSON.parse restricted to the flat object fragment the evaluator
and worker prompts request: string keys mapped to integer scores.  A parse
failure is none, matching the catch branches around JSON.parse. -/
def jsonFlatNum (s : String) : Option (List (String × Int)) :=
  match skipWs s.data with
  | [] => none
  | c :: cs =>
    if c == lbrace then
      match skipWs cs with
      | c2 :: cs2 =>
        if c2 == rbrace then (if skipWs cs2 = [] then some [] else none)
        else
          match parseMembersAux (cs.length + 1) cs with
          | some (m, rest) => if skipWs rest = [] then some m else none
          | none => none
      | [] => none
    else none

/-! ## financial_calculation executor (finance-agent.ts, executeFinancialCalculation)

JS numbers are floats; the embedding uses exact rationals.  A missing operand
(indexing past the end of the values array) yields NaN in JS, modelled as a
none result; likewise a zero denominator (JS Infinity or NaN).  The formula
strings returned alongside the numbers are presentation only and are omitted.
A values argument that is absent altogether is not an array, and the very
first element access or forEach call on it throws a TypeError: modelled by
the Except.error branch.  The default branch never touches values and so
never throws. -/

/-- Result value of executeFinancialCalculation: a calculation-tagged object
or the error-tagged object from the default branch. -/
inductive CalcOut where
  | calculation (result : Option ℚ)
  | err (msg : String)
deriving DecidableEq

/-- Subtraction over possibly-missing operands (NaN propagation). -/
def jsSub : Option ℚ → Option ℚ → Option ℚ
  | some a, some b => some (a - b)
  | _, _ => none

/-- The expression (a minus b) over b, times 100, over possibly-missing
operands, none when an operand is missing or b is zero. -/
def jsPctOf : Option ℚ → Option ℚ → Option ℚ
  | some a, some b => if b = 0 then none else some ((a - b) / b * 100)
  | _, _ => none

/-- The expression a over b times 100 with NaN and zero-division as none. -/
def jsRatioPct : Option ℚ → Option ℚ → Option ℚ
  | some a, some b => if b = 0 then none else some (a / b * 100)
  | _, _ => none

/-- Discounted sum of cash flows: cf at index i contributes cf over
(1 + r) to the i-th power. -/
def npvSum (vs : List ℚ) (r : ℚ) : ℚ :=
  (vs.enum.map (fun p => p.2 / (1 + r) ^ p.1)).sum

/-- Models executeFinancialCalculation.  The operation string selects the
switch branch; the enum of the declared input schema is wider than the
branches implemented here. -/
def executeFinancialCalculation (operation : String) (values : Option (List ℚ))
    (discountRate : Option ℚ) : Except String CalcOut :=
  if operation = "variance" then
    match values with
    | none => .error "TypeError: values is not an array"
    | some vs => .ok (.calculation (jsSub vs[0]? vs[1]?))
  else if operation = "variance_percent" then
    match values with
    | none => .error "TypeError: values is not an array"
    | some vs => .ok (.calculation (jsPctOf vs[0]? vs[1]?))
  else if operation = "roi" then
    match values with
    | none => .error "TypeError: values is not an array"
    | some vs => .ok (.calculation (jsPctOf vs[0]? vs[1]?))
  else if operation = "ebitda_margin" then
    match values with
    | none => .error "TypeError: values is not an array"
    | some vs => .ok (.calculation (jsRatioPct vs[0]? vs[1]?))
  else if operation = "npv" then
    match values with
    | none => .error "TypeError: values is not an array"
    | some vs =>
      let r : ℚ := match discountRate with
        | some r => if r = 0 then 1 / 10 else r
        | none => 1 / 10
      if 1 + r = 0 then .ok (.calculation none)
      else .ok (.calculation (some (npvSum vs r)))
  else .ok (.err ("Unknown operation: " ++ operation))

/-- The operation enum declared in the financial_calculation input schema
(financeTools in finance-agent.ts). -/
def financialCalculationOperations : List String :=
  ["variance", "variance_percent", "roi", "npv", "irr", "ratio", "yoy",
   "qoq", "cagr", "ebitda_margin"]

/-! ## ReportEvaluator (orchestrator.ts)

The evaluate method sends one prompt to the model and parses the response;
the response-to-result function is embedded here.  The verdict string is the
trimmed body of the evaluation tag, cast unchecked in the source; the scores
are JSON.parse of the scores tag with the catch falling back to a single
overall score of 5. -/

/-- Parsed result of ReportEvaluator.evaluate for one model response. -/
structure EvalResult where
  status : String
  feedback : String
  scores : List (String × Int)
deriving DecidableEq

/-- Models the response-parsing part of ReportEvaluator.evaluate. -/
def evaluateParse (response : String) : EvalResult :=
  let scoresJson := extractXml response "scores"
  let evaluation := jsTrim (extractXml response "evaluation")
  let feedback := extractXml response "feedback"
  let scores := match jsonFlatNum scoresJson with
    | some m => m
    | none => [("overall", 5)]
  { status := evaluation, feedback := feedback, scores := scores }

/-- Result of ReportEvaluator.optimize. -/
structure OptimizeResult where
  optimizedReport : String
  iterations : Nat
  finalScore : List (String × Int)
deriving DecidableEq

/-- Next model response from the supply; an exhausted supply reads as the
empty response. -/
def nextResp : List String → String × List String
  | [] => ("", [])
  | r :: rs => (r, rs)

/-- Models the while loop body of ReportEvaluator.optimize.  The fuel is the
number of remaining permitted iterations; iters counts iterations performed
so far.  Each round consumes one evaluate response and, when the verdict is
not PASS, one improvement response; improved-report extraction falling back
to the current report models the JS or-else on the empty string. -/
def optimizeAux : Nat → String → Nat → List String → OptimizeResult
  | 0, report, iters, resps =>
    let (r, _) := nextResp resps
    let ev := evaluateParse r
    { optimizedReport := report, iterations := iters, finalScore := ev.scores }
  | fuel + 1, report, iters, resps =>
    let (r, resps1) := nextResp resps
    let ev := evaluateParse r
    if ev.status = "PASS" then
      { optimizedReport := report, iterations := iters + 1, finalScore := ev.scores }
    else
      let (r2, resps2) := nextResp resps1
      let improved := extractXml r2 "improved_report"
      let report1 := if improved = "" then report else improved
      optimizeAux fuel report1 (iters + 1) resps2

/-- Models ReportEvaluator.optimize.  The feedback argument is received but,
as in the source, never used by the loop, which re-evaluates each draft. -/
def reportOptimize (report : String) (feedback : String) (maxIterations : Nat)
    (resps : List String) : OptimizeResult :=
  let _ := feedback
  optimizeAux maxIterations report 0 resps

/-- The status of the j-th evaluation when the verdict before it was never
PASS: evaluation j reads the response at position 2 times j, because each
non-passing round consumes an evaluate response and an improve response. -/
def statusAt (resps : List String) (j : Nat) : String :=
  (evaluateParse (resps.getD (2 * j) "")).status

/-! ## FinancialOrchestrator (orchestrator.ts)

Decompose: parseTasksXml scans the orchestrator response for task blocks
with a global lazy regex; each block yields a subtask when both a type tag
and a description tag are present, priority defaulting to 1 when the tag is
absent.  The tasks are then sorted ascending by priority with a stable sort,
as the JS
sort comparator subtracts priorities.  A priority tag whose body does not
parse as an integer is NaN in JS, modelled as a none priority; the JS sort
order for NaN comparators is not specified and the embedding keys such tasks
as 0, which no verified property depends on. -/

/-- A decomposed subtask. -/
structure SubTask where
  type : String
  priority : Option Int
  description : String
deriving DecidableEq

/-- Contents of the successive task blocks, scanning left to right; fuel is
an upper bound on the number of blocks. -/
def taskBlocksAux : Nat → List Char → List (List Char)
  | 0, _ => []
  | fuel + 1, cs =>
    match findSub ("<task>").data cs with
    | none => []
    | some i =>
      let rest := cs.drop (i + 6)
      match findSub ("</task>").data rest with
      | none => []
      | some j => rest.take j :: taskBlocksAux fuel (rest.drop (j + 7))

/-- Sort key: NaN priorities are keyed as 0 (JS comparator behaviour on NaN
is unspecified; no claim depends on the relative order). -/
def priorityKey (t : SubTask) : Int := t.priority.getD 0

/-- Insert into an ascending list, before the first element of equal or
larger key: as the sort below inserts earlier elements into the sorted list
of later ones, this keeps the sort stable. -/
def insertByPriority (t : SubTask) : List SubTask → List SubTask
  | [] => [t]
  | h :: rest =>
    if priorityKey t ≤ priorityKey h then t :: h :: rest
    else h :: insertByPriority t rest

/-- Stable ascending insertion sort by priority, modelling the JS stable
Array sort with the priority-subtraction comparator. -/
def sortByPriority : List SubTask → List SubTask
  | [] => []
  | t :: rest => insertByPriority t (sortByPriority rest)

/-- Models parseTasksXml: extract the task blocks, keep those with a type
and a description, parse the priority, and stable-sort by priority. -/
def parseTasksXml (xml : String) : List SubTask :=
  let blocks := taskBlocksAux xml.data.length xml.data
  let tasks := blocks.filterMap (fun b =>
    match matchTagLine "<type>" "</type>" b,
          matchTagMulti "<description>" "</description>" b with
    | some t, some d =>
      some { type := jsTrim (String.mk t)
             priority := match matchTagLine "<priority>" "</priority>" b with
               | some p => jsParseInt (jsTrim (String.mk p))
               | none => some 1
             description := jsTrim (String.mk d) }
    | _, _ => none)
  sortByPriority tasks

/-- One worker finding. -/
structure WorkerResult where
  type : String
  description : String
  result : String
  metrics : Option (List (String × Int))
deriving DecidableEq

/-- Result of FinancialOrchestrator.analyze. -/
structure OrchestratorResult where
  analysis : String
  workerResults : List WorkerResult
  synthesis : String
deriving DecidableEq

/-- Index of the last occurrence of c in cs. -/
def lastIdxOf (c : Char) (cs : List Char) : Option Nat :=
  (findSub [c] cs.reverse).map (fun k => cs.length - 1 - k)

/-- Models the greedy brace regex applied to the metrics tag body: from the
first left brace through the last right brace, inclusive. -/
def greedyBraceSlice (cs : List Char) : Option (List Char) :=
  match findSub [lbrace] cs with
  | none => none
  | some i =>
    let rest := cs.drop i
    match lastIdxOf rbrace rest with
    | none => none
    | some j => some (rest.take (j + 1))

/-- Models the per-worker response parsing in FinancialOrchestrator.analyze:
analysis and recommendation tags are extracted, and the metrics JSON is
parsed from the greedy brace slice with failures dropped. -/
def parseWorkerResponse (st : SubTask) (response : String) : WorkerResult :=
  let analysisContent := extractXml response "analysis"
  let metricsJson := extractXml response "metrics"
  let recommendation := extractXml response "recommendation"
  let metrics :=
    if metricsJson = "" then none
    else match greedyBraceSlice metricsJson.data with
      | none => none
      | some slice => jsonFlatNum (String.mk slice)
  { type := st.type
    description := st.description
    result := analysisContent ++ "\n\nRecommendation: " ++ recommendation
    metrics := metrics }

/-- Run the worker loop: worker i answers subtask i through the oracle; a
thrown worker call propagates and aborts the whole loop, as there is no
try-catch around the llmCall in the source. -/
def runWorkers (workers : Nat → Except String String) :
    List SubTask → Nat → Except String (List WorkerResult)
  | [], _ => .ok []
  | st :: rest, i =>
    match workers i with
    | .error e => .error e
    | .ok resp =>
      match runWorkers workers rest (i + 1) with
      | .error e => .error e
      | .ok tail => .ok (parseWorkerResponse st resp :: tail)

/-- Models the synthesis-response formatting at the end of analyze. -/
def buildSynthesis (response : String) : String :=
  extractXml response "executive_summary" ++ "\n\nKey Insights:\n"
    ++ extractXml response "key_insights" ++ "\n\nRecommendations:\n"
    ++ extractXml response "recommendations"

/-- Models FinancialOrchestrator.analyze.  The three oracle arguments are the
outcomes of the orchestrator call, the per-subtask worker calls, and the
synthesis call; Except.error is a thrown model call, which propagates out of
analyze uncaught. -/
def analyze (orch : Except String String) (workers : Nat → Except String String)
    (synth : Except String String) : Except String OrchestratorResult :=
  match orch with
  | .error e => .error e
  | .ok oresp =>
    let analysisText := extractXml oresp "analysis"
    let tasksXml := extractXml oresp "tasks"
    let subtasks := parseTasksXml ("<tasks>" ++ tasksXml ++ "</tasks>")
    match runWorkers workers subtasks 0 with
    | .error e => .error e
    | .ok wrs =>
      match synth with
      | .error e => .error e
      | .ok sresp =>
        .ok { analysis := analysisText, workerResults := wrs
              synthesis := buildSynthesis sresp }

/-! ## Context assembly (route.ts POST and streamFinanceChat)

The route reads the full persisted history of the thread, appends the new
user message, and hands the list to streamFinanceChat, which converts each
turn verbatim into a provider message, marking the last user turn for prompt
caching.  No character budget, truncation, or placeholder turn appears
anywhere on this path. -/

/-- A chat turn as stored and as passed to streamFinanceChat. -/
structure ChatMessage where
  role : String
  content : String
deriving DecidableEq

/-- Models the message-list assembly in the route handler: the previous
messages in order followed by the new user message. -/
def buildMessages (previousMessages : List ChatMessage) (message : String) :
    List ChatMessage :=
  previousMessages ++ [{ role := "user", content := message }]

/-- A provider message: the text is carried verbatim; cached marks the
ephemeral cache-control block placed on the final user turn. -/
structure AnthropicMsg where
  role : String
  text : String
  cached : Bool
deriving DecidableEq

/-- Models the conversion loop at the top of streamFinanceChat. -/
def toAnthropicMessages (messages : List ChatMessage) : List AnthropicMsg :=
  messages.enum.map (fun p =>
    { role := p.2.role, text := p.2.content
      cached := p.2.role == "user" && p.1 == messages.length - 1 : AnthropicMsg })

/-- Total character count of the provider messages. -/
def totalChars (ms : List AnthropicMsg) : Nat :=
  (ms.map (fun m => m.text.length)).sum

/-! ## Tool executors and dispatch (finance-agent.ts)

Each executor is embedded as a function from its input (plus an oracle for
any external call it makes) to the result object it returns.  ExecOut is the
closed set of result shapes executeTool can produce; typeField reads the
type property of the result object, none when the object literal carries no
type key at all. -/

/-- One entry of the results and citations arrays built by
executeSearchDocuments. -/
structure SearchItem where
  documentId : String
  documentName : String
  excerpt : String
deriving DecidableEq

/-- The object literal executeSearchDocuments returns on every path: results,
citations, and a message, with no type key. -/
structure SearchOut where
  results : List SearchItem
  citations : List SearchItem
  message : String
deriving DecidableEq

/-- A row of the vector search result used by executeSearchDocuments. -/
structure SearchChunk where
  documentId : String
  documentName : String
  content : String
deriving DecidableEq

/-- Outcome of the external calls inside executeSearchDocuments: the vector
search produced chunks (already joined with their document names), produced
an error or nothing, or some step threw and the catch branch ran. -/
inductive SearchOutcome where
  | found (chunks : List SearchChunk)
  | noResults
  | thrown
deriving DecidableEq

/-- Models executeSearchDocuments.  The no-results and catch branches return
fixed demo payloads mentioning the query; the found branch maps the chunks
to results with a 200-character excerpt and citations with a 150-character
excerpt. -/
def executeSearchDocuments (query : String) (outcome : SearchOutcome) : SearchOut :=
  match outcome with
  | .found chunks =>
    if chunks = [] then
      { results := [{ documentId := "demo-1", documentName := "Financial Analysis Guide"
                      excerpt := "This document contains information about " ++ query
                        ++ " and related financial concepts." }]
        citations := [{ documentId := "demo-1", documentName := "Financial Analysis Guide"
                        excerpt := "Reference for " ++ query }]
        message := "Found reference materials for \"" ++ query ++ "\"" }
    else
      { results := chunks.map (fun c =>
          { documentId := c.documentId, documentName := c.documentName
            excerpt := String.mk (c.content.data.take 200) })
        citations := chunks.map (fun c =>
          { documentId := c.documentId, documentName := c.documentName
            excerpt := String.mk (c.content.data.take 150) })
        message := "Found " ++ toString chunks.length ++ " relevant document sections" }
  | .noResults =>
    { results := [{ documentId := "demo-1", documentName := "Financial Analysis Guide"
                    excerpt := "This document contains information about " ++ query
                      ++ " and related financial concepts." }]
      citations := [{ documentId := "demo-1", documentName := "Financial Analysis Guide"
                      excerpt := "Reference for " ++ query }]
      message := "Found reference materials for \"" ++ query ++ "\"" }
  | .thrown =>
    { results := [{ documentId := "demo-1", documentName := "Financial Knowledge Base"
                    excerpt := "Reference material for " ++ query }]
      citations := [{ documentId := "demo-1", documentName := "Financial Knowledge Base"
                      excerpt := "Reference for " ++ query }]
      message := "Found reference materials for \"" ++ query ++ "\"" }

/-- Worker for collapseWsDash: the flag records whether the previous
character was inside a whitespace run whose dash is already emitted. -/
def collapseWsDashAux : Bool → List Char → List Char
  | _, [] => []
  | inRun, c :: cs =>
    if isWsChar c then
      if inRun then collapseWsDashAux true cs
      else '-' :: collapseWsDashAux true cs
    else c :: collapseWsDashAux false cs

/-- Replace every maximal run of whitespace by a single dash: models the JS
replace of the whitespace-run regex used for export filenames. -/
def collapseWsDash (cs : List Char) : List Char :=
  collapseWsDashAux false cs

/-- Lower-case a string character-wise (ASCII fragment of the JS
toLowerCase). -/
def jsToLower (s : String) : String := String.mk (s.data.map Char.toLower)

/-- The base filename computed by executeExportFile: an explicit filename, or
else the lower-cased title with whitespace runs collapsed to dashes. -/
def exportBaseFilename (title : String) (filename : Option String) : String :=
  match filename with
  | some f => if f = "" then String.mk (collapseWsDash (jsToLower title).data) else f
  | none => String.mk (collapseWsDash (jsToLower title).data)

/-- The closed set of result objects executeTool can return.  Each
constructor records the type tag of the source object literal (or its
absence) together with the payload fields relevant to verification. -/
inductive ExecOut where
  | search (o : SearchOut)
  | calc (c : CalcOut)
  | chart (chartType title xAxisKey : String) (yAxisKeys : List String)
  | table (title : String) (columns : List String)
  | spreadsheet (action : String)
  | image (title : String) (ok : Bool)
  | analysis (r : OrchestratorResult)
  | analysisError (msg : String)
  | evaluation (status : String) (iterations : Option Nat)
  | evaluationError (msg : String)
  | docAnalysis
  | imageAnalysis
  | docError (msg : String)
  | export (format filename : String)
  | unknownTool (name : String)
deriving DecidableEq

/-- The type property of the result object, none when the literal carries no
type key (the search results and the unknown-tool fallback). -/
def typeField : ExecOut → Option String
  | .search _ => none
  | .calc (.calculation _) => some "calculation"
  | .calc (.err _) => some "error"
  | .chart _ _ _ _ => some "chart"
  | .table _ _ => some "table"
  | .spreadsheet _ => some "spreadsheet"
  | .image _ _ => some "image"
  | .analysis _ => some "analysis"
  | .analysisError _ => some "error"
  | .evaluation _ _ => some "evaluation"
  | .evaluationError _ => some "error"
  | .docAnalysis => some "document_analysis"
  | .imageAnalysis => some "image_analysis"
  | .docError _ => some "error"
  | .export _ _ => some "export"
  | .unknownTool _ => none

/-- A dispatch request: the tool invoked, its input fields, and the oracles
for the external calls its executor makes. -/
inductive ToolCallReq where
  | searchDocuments (query : String) (outcome : SearchOutcome)
  | financialCalculation (operation : String) (values : Option (List ℚ))
      (discountRate : Option ℚ)
  | generateChart (chartType title xAxisKey : String) (yAxisKeys : List String)
  | generateTable (title : String) (columns : List String)
  | spreadsheetOperation (action : String)
  | generateImage (title : Option String) (external : Except String Unit)
  | complexAnalysis (orch : Except String String)
      (workers : Nat → Except String String) (synth : Except String String)
  | evaluateReport (report : String) (optimizeFlag : Bool) (maxIterations : Option Nat)
      (api : Except String (List String))
  | analyzeDocument (mimeType : String) (api : Except String Unit)
  | exportFile (format title : String) (filename : Option String) (timestamp : String)
  | unknown (name : String)

/-- The registry name a request dispatches to. -/
def ToolCallReq.name : ToolCallReq → String
  | .searchDocuments .. => "search_documents"
  | .financialCalculation .. => "financial_calculation"
  | .generateChart .. => "generate_chart"
  | .generateTable .. => "generate_table"
  | .spreadsheetOperation .. => "spreadsheet_operation"
  | .generateImage .. => "generate_image"
  | .complexAnalysis .. => "complex_analysis"
  | .evaluateReport .. => "evaluate_report"
  | .analyzeDocument .. => "analyze_document"
  | .exportFile .. => "export_file"
  | .unknown n => n

/-- The tool names statically declared in financeTools. -/
def registryToolNames : List String :=
  ["search_documents", "financial_calculation", "generate_chart", "generate_table",
   "spreadsheet_operation", "generate_image", "complex_analysis", "evaluate_report",
   "analyze_document", "export_file"]

/-- Models executeEvaluateReport: evaluate the report, and when optimization
is requested and the verdict is not PASS run the optimizer; the or-else on
maxIterations maps 0 and absence to 3; a thrown model call reaches the catch
and yields the error-tagged object. -/
def executeEvaluateReport (report : String) (optimizeFlag : Bool)
    (maxIterations : Option Nat) (api : Except String (List String)) : ExecOut :=
  match api with
  | .error e => .evaluationError e
  | .ok resps =>
    let (r, rest) := nextResp resps
    let ev := evaluateParse r
    if optimizeFlag ∧ ev.status ≠ "PASS" then
      let maxIter := match maxIterations with
        | some n => if n = 0 then 3 else n
        | none => 3
      let opt := reportOptimize report ev.feedback maxIter rest
      .evaluation ev.status (some opt.iterations)
    else .evaluation ev.status none

/-- Models executeAnalyzeDocument: PDFs get the document analysis, images the
image analysis, anything else the unsupported-type error object; a thrown
provider call reaches the catch and yields the error object. -/
def executeAnalyzeDocument (mimeType : String) (api : Except String Unit) : ExecOut :=
  if mimeType = "application/pdf" then
    match api with
    | .ok _ => .docAnalysis
    | .error e => .docError e
  else if mimeType.startsWith "image/" then
    match api with
    | .ok _ => .imageAnalysis
    | .error e => .docError e
  else .docError "Unsupported document type"

/-- Models executeTool.  The switch selects the executor; the result is the
executor result, and an Except.error is an exception thrown by the executor
and NOT caught by executeTool, which has no try-catch: it propagates to the
caller.  The default branch returns a bare error object with no type key. -/
def executeToolM : ToolCallReq → Except String ExecOut
  | .searchDocuments q outcome => .ok (.search (executeSearchDocuments q outcome))
  | .financialCalculation op vals dr =>
    (executeFinancialCalculation op vals dr).map .calc
  | .generateChart ct t xk yks => .ok (.chart ct t xk yks)
  | .generateTable t cols => .ok (.table t cols)
  | .spreadsheetOperation action => .ok (.spreadsheet action)
  | .generateImage title external =>
    match external with
    | .ok _ => .ok (.image (title.getD "Generated Visualization") true)
    | .error _ => .ok (.image (title.getD "Image Generation") false)
  | .complexAnalysis orch workers synth =>
    match analyze orch workers synth with
    | .ok r => .ok (.analysis r)
    | .error e => .ok (.analysisError e)
  | .evaluateReport report opt maxIter api =>
    .ok (executeEvaluateReport report opt maxIter api)
  | .analyzeDocument mime api => .ok (executeAnalyzeDocument mime api)
  | .exportFile format title filename timestamp =>
    let base := exportBaseFilename title filename
    if format = "excel" then .ok (.export "excel" (base ++ "-" ++ timestamp ++ ".xlsx"))
    else .ok (.export "powerpoint" (base ++ "-" ++ timestamp ++ ".pptx"))
  | .unknown n => .ok (.unknownTool n)

/-! ## The tool-calling loop and the outbound event stream

streamFinanceChat runs at most maxIterations rounds.  Each round asks the
model for a response; a response with tool-use blocks triggers sequential
tool execution (tool start callback, executeTool, tool result callback per
block, in block order) and another round; a response without tool-use blocks
streams its text character by character and fires the done callback.  The
stop-reason check after the branch only re-clears the already-cleared flag
and changes nothing.  Any exception - a failed model call or a throwing
executor - reaches the one try-catch wrapping the whole loop, which fires
the error callback once and returns.  When the iteration cap is reached
while tool calls keep coming, the while condition goes false and the
function returns without firing any callback.

The route wires the callbacks to server-sent events: one thread event up
front, then text, tool_start, tool_result (followed by a canvas event when
the result type is chart, table or image, and a citations event when the
result carries citations), done, and error events as the callbacks fire. -/

/-- A tool-use block of a model response. -/
structure ToolUse where
  id : String
  name : String
  input : String
deriving DecidableEq

/-- The view of a tool result that the route inspects: its type property and
whether it carries a citations property. -/
structure ToolOutView where
  tyField : Option String
  hasCitations : Bool
deriving DecidableEq

/-- One model response: accumulated text and tool-use blocks in order. -/
structure ModelResp where
  text : String
  toolUses : List ToolUse
deriving DecidableEq

/-- The server-sent events the route can emit. -/
inductive StreamEv where
  | thread
  | text (c : Char)
  | toolStart (name input : String)
  | toolResult (name : String) (out : ToolOutView)
  | canvas (out : ToolOutView)
  | citations
  | done
  | error (msg : String)
deriving DecidableEq

/-- Does the route push this result to the canvas: its type is chart, table
or image. -/
def isCanvasType (t : Option String) : Bool :=
  t == some "chart" || t == some "table" || t == some "image"

/-- Terminal events of the stream protocol: done and error. -/
def isTerminal : StreamEv → Bool
  | .done => true
  | .error _ => true
  | _ => false

/-- Events that belong to a tool round trip. -/
def isToolEv : StreamEv → Bool
  | .toolStart _ _ => true
  | .toolResult _ _ => true
  | .canvas _ => true
  | .citations => true
  | _ => false

/-- Number of terminal events in a trace. -/
def countTerminal (evs : List StreamEv) : Nat :=
  (evs.filter isTerminal).length

/-- Executes the tool-use blocks of one response in order.  Returns the
emitted events, the tool-result feedback entries (tool-use id paired with
the result) in execution order, and the message of the first thrown
executor exception, if any: the throw aborts the round, so later blocks are
neither started nor executed and no feedback is built. -/
def toolRound (exec : ToolUse → Except String ToolOutView) :
    List ToolUse → List StreamEv × List (String × ToolOutView) × Option String
  | [] => ([], [], none)
  | tu :: rest =>
    match exec tu with
    | .error e => ([.toolStart tu.name tu.input], [], some e)
    | .ok out =>
      let tail := toolRound exec rest
      (.toolStart tu.name tu.input :: .toolResult tu.name out ::
        ((if isCanvasType out.tyField then [.canvas out] else []) ++
         (if out.hasCitations then [.citations] else []) ++ tail.1),
       (tu.id, out) :: tail.2.1, tail.2.2)

/-- The maximum number of model rounds in streamFinanceChat. -/
def maxIterations : Nat := 5

/-- Events emitted by the loop from the current iteration on, with fuel the
number of while-loop entries still permitted.  The model oracle gives the
response of each iteration by index; Except.error is a thrown model call.
At fuel zero the while condition fails and the loop ends with no event. -/
def loopEvents (model : Nat → Except String ModelResp)
    (exec : ToolUse → Except String ToolOutView) : Nat → Nat → List StreamEv
  | 0, _ => []
  | fuel + 1, iter =>
    match model iter with
    | .error e => [.error e]
    | .ok resp =>
      if resp.toolUses = [] then
        resp.text.data.map StreamEv.text ++ [.done]
      else
        let round := toolRound exec resp.toolUses
        match round.2.2 with
        | some e => round.1 ++ [.error e]
        | none => round.1 ++ loopEvents model exec fuel (iter + 1)

/-- The full outbound event stream of one chat request: the thread event is
sent before the agent runs, then the loop events follow. -/
def routeEvents (model : Nat → Except String ModelResp)
    (exec : ToolUse → Except String ToolOutView) : List StreamEv :=
  .thread :: loopEvents model exec maxIterations 0

/-- Is this event a tool-start event. -/
def isStartEv : StreamEv → Bool
  | .toolStart _ _ => true
  | _ => false

/-- A round in which the model keeps calling tools and every executor
returns: the regime of the iteration-cap scenario. -/
def toolsEveryRound (model : Nat → Except String ModelResp)
    (exec : ToolUse → Except String ToolOutView) (i : Nat) : Prop :=
  ∃ r, model i = .ok r ∧ r.toolUses ≠ [] ∧ ∀ tu ∈ r.toolUses, ∃ o, exec tu = .ok o

/-- The list of type tags the spec permits for tool outputs. -/
def allowedTypeTags : List String :=
  ["chart", "table", "image", "export", "analysis", "evaluation",
   "document_analysis", "calculation", "spreadsheet", "error"]

/-! ## Concrete scenarios used by counterexamples and witnesses -/

/-- A model that answers every round with one chart tool call. -/
def capModel : Nat → Except String ModelResp :=
  fun _ => .ok { text := "", toolUses := [⟨"toolu_1", "generate_chart", ""⟩] }

/-- An executor view that always succeeds with a chart-tagged result. -/
def capExec : ToolUse → Except String ToolOutView :=
  fun _ => .ok { tyField := some "chart", hasCitations := false }

/-- View of a calculation result as the route sees it. -/
def calcView (c : CalcOut) : ToolOutView :=
  { tyField := typeField (.calc c), hasCitations := false }

/-- The tool-use block of a financial_calculation call whose input carries
no values array. -/
def fcToolUse : ToolUse := ⟨"toolu_1", "financial_calculation", ""⟩

/-- A second tool-use block in the same model response. -/
def tableToolUse : ToolUse := ⟨"toolu_2", "generate_table", ""⟩

/-- The executor view for the bad calculation call: dispatching it runs
executeFinancialCalculation on an absent values array, which throws. -/
def throwingExec : ToolUse → Except String ToolOutView :=
  fun _ => (executeFinancialCalculation "variance" none none).map calcView

/-- A model whose first round requests the bad calculation and the bad
calculation only, and whose later rounds would answer with plain text. -/
def throwModel : Nat → Except String ModelResp :=
  fun i =>
    if i = 0 then .ok { text := "", toolUses := [fcToolUse] }
    else .ok { text := "ok", toolUses := [] }

/-- An orchestrator response decomposing into two subtasks. -/
def twoTaskResp : String :=
  "<analysis>plan</analysis><tasks><task><type>variance_analysis</type>"
    ++ "<priority>1</priority><description>d1</description></task>"
    ++ "<task><type>trend_analysis</type><priority>2</priority>"
    ++ "<description>d2</description></task></tasks>"

/-- Workers where the first succeeds and the second throws. -/
def failingWorkers : Nat → Except String String :=
  fun i =>
    if i = 0 then .ok "<analysis>a</analysis><recommendation>r</recommendation>"
    else .error "Request timed out"

/-- An evaluation response whose scores are all at least 7 but whose
evaluation tag says FAIL. -/
def inconsistentEvalResp : String :=
  "<scores>\x7b\"accuracy\": 8, \"completeness\": 9, \"clarity\": 8, \"actionability\": 7\x7d</scores>"
    ++ "<evaluation>FAIL</evaluation><feedback>style</feedback>"

/-- An evaluation response that passes. -/
def passEvalResp : String :=
  "<scores>\x7b\"accuracy\": 8, \"completeness\": 9, \"clarity\": 8, \"actionability\": 7\x7d</scores>"
    ++ "<evaluation>PASS</evaluation><feedback>good</feedback>"

/-- Workers that always return a small well-formed response. -/
def okWorkers : Nat → Except String String :=
  fun _ => .ok "<analysis>a</analysis><recommendation>r</recommendation>"

/-! ## Support lemmas -/

set_option maxRecDepth 100000

/-- Tool-round-trip events are never terminal events. -/
theorem isTerminal_false_of_isToolEv {e : StreamEv} (h : isToolEv e = true) :
    isTerminal e = false := by
  cases e <;> simp_all [isToolEv, isTerminal]

/-- A throwing executor makes the tool round abort after the start event of
the failing call. -/
theorem toolRound_throw (exec : ToolUse → Except String ToolOutView)
    (tu : ToolUse) (msg : String) (h : exec tu = .error msg) (rest : List ToolUse) :
    toolRound exec (tu :: rest) = ([.toolStart tu.name tu.input], [], some msg) := by
  simp [toolRound, h]

/-- When every executor call of the round returns, no exception escapes the
round. -/
theorem toolRound_no_throw (exec : ToolUse → Except String ToolOutView) :
    ∀ tus : List ToolUse, (∀ tu ∈ tus, ∃ o, exec tu = .ok o) →
      (toolRound exec tus).2.2 = none := by
  intro tus
  induction tus with
  | nil => intro _; rfl
  | cons tu rest ih =>
    intro h
    obtain ⟨o, ho⟩ := h tu (by simp)
    have tail := ih (fun tu htu => h tu (by simp [htu]))
    simp [toolRound, ho, tail]

/-- Every event a tool round emits is a tool round-trip event. -/
theorem toolRound_events_tool (exec : ToolUse → Except String ToolOutView) :
    ∀ tus : List ToolUse, ∀ e ∈ (toolRound exec tus).1, isToolEv e = true := by
  intro tus
  induction tus with
  | nil => intro e he; simp [toolRound] at he
  | cons tu rest ih =>
    intro e he
    cases hx : exec tu with
    | error msg => simp [toolRound, hx] at he; simp [he, isToolEv]
    | ok out =>
      simp only [toolRound, hx, List.mem_cons, List.mem_append] at he
      rcases he with rfl | rfl | he
      · rfl
      · rfl
      rcases he with (he | he) | he
      · split at he <;> simp_all [isToolEv]
      · split at he <;> simp_all [isToolEv]
      · exact ih e he

/-- In an all-returning round the feedback entries line up one to one, in
order, with the tool-use ids of the model response. -/
theorem toolRound_feedback_ids (exec : ToolUse → Except String ToolOutView) :
    ∀ tus : List ToolUse, (∀ tu ∈ tus, ∃ o, exec tu = .ok o) →
      (toolRound exec tus).2.1.map Prod.fst = tus.map ToolUse.id := by
  intro tus
  induction tus with
  | nil => intro _; rfl
  | cons tu rest ih =>
    intro h
    obtain ⟨o, ho⟩ := h tu (by simp)
    have tail := ih (fun tu htu => h tu (by simp [htu]))
    simp [toolRound, ho, tail]

/-- In an all-returning round the start events, in order, are exactly the
start events of every tool use of the response. -/
theorem toolRound_start_events (exec : ToolUse → Except String ToolOutView) :
    ∀ tus : List ToolUse, (∀ tu ∈ tus, ∃ o, exec tu = .ok o) →
      (toolRound exec tus).1.filter isStartEv
        = tus.map (fun tu => .toolStart tu.name tu.input) := by
  intro tus
  induction tus with
  | nil => intro _; rfl
  | cons tu rest ih =>
    intro h
    obtain ⟨o, ho⟩ := h tu (by simp)
    have tail := ih (fun tu htu => h tu (by simp [htu]))
    simp only [toolRound, ho, List.filter_cons, List.filter_append]
    have h1 : (if isCanvasType o.tyField then [StreamEv.canvas o] else []).filter isStartEv = [] := by
      split <;> rfl
    have h2 : (if o.hasCitations then [StreamEv.citations] else []).filter isStartEv = [] := by
      split <;> rfl
    simp [isStartEv, h1, h2, tail]

/-- Loop step: a failed model call emits the single error event. -/
theorem loopEvents_step_model_error {model : Nat → Except String ModelResp}
    {exec : ToolUse → Except String ToolOutView} {iter : Nat} {e : String}
    (fuel : Nat) (hm : model iter = .error e) :
    loopEvents model exec (fuel + 1) iter = [StreamEv.error e] := by
  rw [loopEvents, hm]

/-- Loop step: a response without tool uses streams its text and the done
event. -/
theorem loopEvents_step_final {model : Nat → Except String ModelResp}
    {exec : ToolUse → Except String ToolOutView} {iter : Nat} {r : ModelResp}
    (fuel : Nat) (hm : model iter = .ok r) (hne : r.toolUses = []) :
    loopEvents model exec (fuel + 1) iter
      = r.text.data.map StreamEv.text ++ [StreamEv.done] := by
  rw [loopEvents, hm]
  simp [hne]

/-- Loop step: a response with tool uses whose round throws emits the round
prefix and the error event. -/
theorem loopEvents_step_throw {model : Nat → Except String ModelResp}
    {exec : ToolUse → Except String ToolOutView} {iter : Nat} {r : ModelResp}
    {msg : String} (fuel : Nat) (hm : model iter = .ok r) (hne : r.toolUses ≠ [])
    (hthrow : (toolRound exec r.toolUses).2.2 = some msg) :
    loopEvents model exec (fuel + 1) iter
      = (toolRound exec r.toolUses).1 ++ [StreamEv.error msg] := by
  rw [loopEvents, hm]
  simp [hne, hthrow]

/-- Loop step: a response with tool uses whose round returns normally emits
the round events and continues with the next iteration. -/
theorem loopEvents_step_tools {model : Nat → Except String ModelResp}
    {exec : ToolUse → Except String ToolOutView} {iter : Nat} {r : ModelResp}
    (fuel : Nat) (hm : model iter = .ok r) (hne : r.toolUses ≠ [])
    (hok : (toolRound exec r.toolUses).2.2 = none) :
    loopEvents model exec (fuel + 1) iter
      = (toolRound exec r.toolUses).1 ++ loopEvents model exec fuel (iter + 1) := by
  rw [loopEvents, hm]
  simp [hne, hok]

/-- When the model keeps requesting tools on every remaining permitted
round and every executor returns, the loop emits tool round-trip events
only. -/
theorem loopEvents_all_tool (model : Nat → Except String ModelResp)
    (exec : ToolUse → Except String ToolOutView) :
    ∀ fuel iter, (∀ i, iter ≤ i → i < iter + fuel → toolsEveryRound model exec i) →
      ∀ e ∈ loopEvents model exec fuel iter, isToolEv e = true := by
  intro fuel
  induction fuel with
  | zero => intro iter _ e he; simp [loopEvents] at he
  | succ fuel ih =>
    intro iter h e he
    obtain ⟨r, hm, hne, hexec⟩ := h iter (Nat.le_refl _) (by omega)
    rw [loopEvents_step_tools fuel hm hne (toolRound_no_throw exec r.toolUses hexec)] at he
    rcases List.mem_append.mp he with he | he
    · exact toolRound_events_tool exec r.toolUses e he
    · exact ih (iter + 1) (fun i h1 h2 => h i (by omega) (by omega)) e he

/-- The loop trace decomposes into tool round-trip events followed by a
tail that is empty (the silent cap exit), a single error event, or the
final-answer text deltas followed by a single done event. -/
theorem loopEvents_shape (model : Nat → Except String ModelResp)
    (exec : ToolUse → Except String ToolOutView) :
    ∀ fuel iter, ∃ B T,
      loopEvents model exec fuel iter = B ++ T ∧
      (∀ e ∈ B, isToolEv e = true) ∧
      (T = [] ∨ (∃ s, T = [StreamEv.error s]) ∨
        ∃ cs : List Char, T = cs.map StreamEv.text ++ [StreamEv.done]) := by
  intro fuel
  induction fuel with
  | zero =>
    intro iter
    exact ⟨[], [], rfl, by simp, Or.inl rfl⟩
  | succ fuel ih =>
    intro iter
    cases hm : model iter with
    | error e =>
      refine ⟨[], [StreamEv.error e], ?_, by simp, Or.inr (Or.inl ⟨e, rfl⟩)⟩
      rw [loopEvents, hm]; rfl
    | ok resp =>
      by_cases hne : resp.toolUses = []
      · refine ⟨[], resp.text.data.map StreamEv.text ++ [StreamEv.done], ?_, by simp,
          Or.inr (Or.inr ⟨resp.text.data, rfl⟩)⟩
        rw [loopEvents, hm]
        simp [hne]
      · cases hthrow : (toolRound exec resp.toolUses).2.2 with
        | some msg =>
          refine ⟨(toolRound exec resp.toolUses).1, [StreamEv.error msg], ?_,
            toolRound_events_tool exec resp.toolUses, Or.inr (Or.inl ⟨msg, rfl⟩)⟩
          rw [loopEvents, hm]
          simp [hne, hthrow]
        | none =>
          obtain ⟨B, T, hBT, hB, hT⟩ := ih (iter + 1)
          refine ⟨(toolRound exec resp.toolUses).1 ++ B, T, ?_, ?_, hT⟩
          · rw [loopEvents, hm]
            simp [hne, hthrow, hBT]
          · intro e he
            rcases List.mem_append.mp he with he | he
            · exact toolRound_events_tool exec resp.toolUses e he
            · exact hB e he

/-- A list of tool round-trip events contains no terminal event. -/
theorem countTerminal_eq_zero_of_tool {evs : List StreamEv}
    (h : ∀ e ∈ evs, isToolEv e = true) : countTerminal evs = 0 := by
  rw [countTerminal, List.length_eq_zero, List.filter_eq_nil_iff]
  intro e he
  simp [isTerminal_false_of_isToolEv (h e he)]

/-- Texts followed by a done event hold exactly one terminal event. -/
theorem countTerminal_text_done (cs : List Char) :
    countTerminal (cs.map StreamEv.text ++ [StreamEv.done]) = 1 := by
  rw [countTerminal, List.filter_append]
  have h1 : (cs.map StreamEv.text).filter isTerminal = [] := by
    rw [List.filter_eq_nil_iff]
    intro e he
    obtain ⟨c, _, rfl⟩ := List.mem_map.mp he
    simp [isTerminal]
  simp [h1, isTerminal]

/-- The provider messages carry the stored contents verbatim. -/
theorem toAnthropic_texts (messages : List ChatMessage) :
    (toAnthropicMessages messages).map (fun m => m.text)
      = messages.map (fun m => m.content) := by
  rw [toAnthropicMessages, List.map_map]
  have h : ∀ p : Nat × ChatMessage,
      ((fun m => AnthropicMsg.text m) ∘ fun p : Nat × ChatMessage =>
        ({ role := p.2.role, text := p.2.content
           cached := p.2.role == "user" && p.1 == messages.length - 1 } : AnthropicMsg)) p
        = p.2.content := fun _ => rfl
  rw [List.map_congr_left (fun p _ => h p)]
  have h2 : (fun p : Nat × ChatMessage => p.2.content)
      = (fun m : ChatMessage => m.content) ∘ Prod.snd := rfl
  rw [h2, ← List.map_map, List.enum_map_snd]

/-- Character totals respect the verbatim conversion. -/
theorem totalChars_toAnthropic (messages : List ChatMessage) :
    totalChars (toAnthropicMessages messages)
      = (messages.map (fun m => m.content.length)).sum := by
  rw [totalChars]
  have h : (toAnthropicMessages messages).map (fun m => m.text.length)
      = ((toAnthropicMessages messages).map (fun m => m.text)).map String.length := by
    rw [List.map_map]; rfl
  rw [h, toAnthropic_texts, List.map_map]; rfl

/-! ## Claim C10 -/

/-- C10: every operation among irr, ratio, yoy, qoq and cagr is declared in
the financial_calculation input-schema enum, yet the executor answers it
through the default switch branch with the structured result carrying the
text Unknown operation and the error type tag, for every values array and
discount rate, computing nothing and throwing nothing. -/
theorem c10_unimplemented_enum_operations (op : String)
    (h : op ∈ ["irr", "ratio", "yoy", "qoq", "cagr"]) :
    op ∈ financialCalculationOperations ∧
    ∀ (values : Option (List ℚ)) (discountRate : Option ℚ),
      executeFinancialCalculation op values discountRate
        = .ok (.err ("Unknown operation: " ++ op)) := by
  fin_cases h <;> exact ⟨by decide, fun _ _ => rfl⟩

/-- Witness for C10 at the irr operation. -/
theorem c10_unimplemented_enum_operations_witness :
    "irr" ∈ ["irr", "ratio", "yoy", "qoq", "cagr"] ∧
    ("irr" ∈ financialCalculationOperations ∧
      ∀ (values : Option (List ℚ)) (discountRate : Option ℚ),
        executeFinancialCalculation "irr" values discountRate
          = .ok (.err "Unknown operation: irr")) :=
  ⟨by decide, c10_unimplemented_enum_operations "irr" (by decide)⟩

/-! ## Claim C2 -/

/-- C2 counterexample: no fixed character cap bounds the assembled message
list, because the route appends the full history and the new message
verbatim; for any purported total cap and newest-turn cap, a new message one
character longer than the total cap yields a bundle (and a newest turn)
exceeding it.  This refutes the claimed invariant that the total length and
the newest-turn length stay within fixed configured caps. -/
theorem c2_no_cap_counterexample :
    ¬ ∃ totalCap newestCap : Nat,
      ∀ (previous : List ChatMessage) (message : String),
        totalChars (toAnthropicMessages (buildMessages previous message)) ≤ totalCap ∧
        message.length ≤ newestCap := by
  rintro ⟨totalCap, newestCap, h⟩
  have h2 := (h [] (String.mk (List.replicate (totalCap + newestCap + 1) 'a'))).1
  rw [totalChars_toAnthropic] at h2
  have h3 : (buildMessages [] (String.mk (List.replicate (totalCap + newestCap + 1) 'a'))).map
      (fun m => m.content.length) = [totalCap + newestCap + 1] := by
    show [(List.replicate (totalCap + newestCap + 1) 'a').length] = _
    rw [List.length_replicate]
  rw [h3] at h2
  simp at h2
  omega

/-- C2 amended: the assembly performs no truncation at all: the provider
messages carry every stored turn and the new user message verbatim, and the
total character count is exactly the sum of all turn lengths, hence
unbounded; in particular no placeholder turn is inserted and the newest
turn is never shortened. -/
theorem c2_verbatim_assembly (previous : List ChatMessage) (message : String) :
    (toAnthropicMessages (buildMessages previous message)).map (fun m => m.text)
      = previous.map (fun m => m.content) ++ [message] ∧
    totalChars (toAnthropicMessages (buildMessages previous message))
      = (previous.map (fun m => m.content.length)).sum + message.length := by
  constructor
  · rw [toAnthropic_texts]
    simp [buildMessages]
  · rw [totalChars_toAnthropic]
    simp [buildMessages]

/-! ## Claim C4 -/

/-- C4 counterexample: a model response whose four criterion scores are all
at least 7 but whose evaluation tag says FAIL produces the verdict FAIL, so
the verdict is not derived from the numeric scores as claimed; in
particular the all-scores-at-least-7 rule does not force a pass verdict. -/
theorem c4_verdict_not_derived_counterexample :
    (∀ s ∈ (evaluateParse inconsistentEvalResp).scores, 7 ≤ s.2) ∧
    (evaluateParse inconsistentEvalResp).status = "FAIL" ∧
    (evaluateParse inconsistentEvalResp).status ≠ "PASS" := by
  refine ⟨by decide, by decide, by decide⟩

/-- C4 amended: the verdict is the trimmed body of the evaluation tag of the
model response, read verbatim; the numeric scores are parsed independently
and never consulted, so any two responses with the same evaluation tag get
the same verdict regardless of their scores.  The scores-to-verdict rule
exists only as an instruction inside the evaluation prompt. -/
theorem c4_verdict_from_evaluation_tag (response : String) :
    (evaluateParse response).status = jsTrim (extractXml response "evaluation") ∧
    ∀ response2 : String,
      extractXml response2 "evaluation" = extractXml response "evaluation" →
      (evaluateParse response2).status = (evaluateParse response).status := by
  refine ⟨rfl, fun response2 h => ?_⟩
  show jsTrim (extractXml response2 "evaluation") = jsTrim (extractXml response "evaluation")
  rw [h]

/-- Witness for C4 amended: the failing-tag response and the passing-tag
response with identical scores have verdicts fixed by their tags alone. -/
theorem c4_verdict_from_evaluation_tag_witness :
    (evaluateParse inconsistentEvalResp).status
      = jsTrim (extractXml inconsistentEvalResp "evaluation") ∧
    extractXml inconsistentEvalResp "evaluation"
      = extractXml inconsistentEvalResp "evaluation" ∧
    (evaluateParse inconsistentEvalResp).status
      = (evaluateParse inconsistentEvalResp).status :=
  ⟨(c4_verdict_from_evaluation_tag inconsistentEvalResp).1, rfl,
    (c4_verdict_from_evaluation_tag inconsistentEvalResp).2 inconsistentEvalResp rfl⟩

/-! ## Claim C9 -/

/-- C9 counterexample: search_documents is a registry tool, yet its executor
result is the results-citations-message object with no type property at all
(here on the empty-retrieval path; the found and catch paths have the same
shape), so not every registry tool returns a type-tagged object from the
claimed set. -/
theorem c9_search_output_untagged_counterexample :
    "search_documents" ∈ registryToolNames ∧
    executeToolM (.searchDocuments "revenue" .noResults)
      = .ok (.search (executeSearchDocuments "revenue" .noResults)) ∧
    typeField (.search (executeSearchDocuments "revenue" .noResults)) = none :=
  ⟨by decide, rfl, rfl⟩

/-- C9 amended: every result executeTool returns is either one of the two
untagged shapes (the search_documents result object and the unknown-tool
fallback object) or carries a type tag from the claimed set extended with
image_analysis, which executeAnalyzeDocument produces for image inputs. -/
theorem c9_output_type_tags (req : ToolCallReq) (out : ExecOut)
    (h : executeToolM req = .ok out) :
    (typeField out = none ∧
      ((∃ q oc, req = .searchDocuments q oc) ∨ ∃ n, req = .unknown n)) ∨
    (∃ t, typeField out = some t ∧ (t ∈ allowedTypeTags ∨ t = "image_analysis")) := by
  cases req with
  | searchDocuments q oc =>
    left
    refine ⟨?_, Or.inl ⟨q, oc, rfl⟩⟩
    have h2 : out = .search (executeSearchDocuments q oc) := by
      simpa [executeToolM] using h.symm
    rw [h2]; rfl
  | financialCalculation op vals dr =>
    right
    rw [executeToolM] at h
    cases hc : executeFinancialCalculation op vals dr with
    | error e => rw [hc] at h; exact absurd h (by simp [Except.map])
    | ok c =>
      rw [hc] at h
      have h2 : out = .calc c := by simpa [Except.map] using h.symm
      rw [h2]
      cases c with
      | calculation r => exact ⟨"calculation", rfl, Or.inl (by decide)⟩
      | err m => exact ⟨"error", rfl, Or.inl (by decide)⟩
  | generateChart ct t xk yks =>
    right
    have h2 : out = .chart ct t xk yks := by simpa [executeToolM] using h.symm
    rw [h2]; exact ⟨"chart", rfl, Or.inl (by decide)⟩
  | generateTable t cols =>
    right
    have h2 : out = .table t cols := by simpa [executeToolM] using h.symm
    rw [h2]; exact ⟨"table", rfl, Or.inl (by decide)⟩
  | spreadsheetOperation action =>
    right
    have h2 : out = .spreadsheet action := by simpa [executeToolM] using h.symm
    rw [h2]; exact ⟨"spreadsheet", rfl, Or.inl (by decide)⟩
  | generateImage title external =>
    right
    cases external with
    | ok u =>
      have h2 : out = .image (title.getD "Generated Visualization") true := by
        simpa [executeToolM] using h.symm
      rw [h2]; exact ⟨"image", rfl, Or.inl (by decide)⟩
    | error e =>
      have h2 : out = .image (title.getD "Image Generation") false := by
        simpa [executeToolM] using h.symm
      rw [h2]; exact ⟨"image", rfl, Or.inl (by decide)⟩
  | complexAnalysis orch workers synth =>
    right
    rw [executeToolM] at h
    cases ha : analyze orch workers synth with
    | ok r =>
      rw [ha] at h
      have h2 : out = .analysis r := by simpa using h.symm
      rw [h2]; exact ⟨"analysis", rfl, Or.inl (by decide)⟩
    | error e =>
      rw [ha] at h
      have h2 : out = .analysisError e := by simpa using h.symm
      rw [h2]; exact ⟨"error", rfl, Or.inl (by decide)⟩
  | evaluateReport report opt maxIter api =>
    right
    have h2 : out = executeEvaluateReport report opt maxIter api := by
      simpa [executeToolM] using h.symm
    rw [h2, executeEvaluateReport.eq_def]
    cases api with
    | error e => exact ⟨"error", rfl, Or.inl (by decide)⟩
    | ok resps =>
      dsimp only
      split
      · exact ⟨"evaluation", rfl, Or.inl (by decide)⟩
      · exact ⟨"evaluation", rfl, Or.inl (by decide)⟩
  | analyzeDocument mime api =>
    right
    have h2 : out = executeAnalyzeDocument mime api := by
      simpa [executeToolM] using h.symm
    rw [h2, executeAnalyzeDocument.eq_def]
    split
    · cases api with
      | ok u => exact ⟨"document_analysis", rfl, Or.inl (by decide)⟩
      | error e => exact ⟨"error", rfl, Or.inl (by decide)⟩
    · split
      · cases api with
        | ok u => exact ⟨"image_analysis", rfl, Or.inr rfl⟩
        | error e => exact ⟨"error", rfl, Or.inl (by decide)⟩
      · exact ⟨"error", rfl, Or.inl (by decide)⟩
  | exportFile format title filename timestamp =>
    right
    rw [executeToolM] at h
    by_cases hf : format = "excel"
    · rw [if_pos hf] at h
      have h2 : out = .export "excel" (exportBaseFilename title filename ++ "-" ++ timestamp ++ ".xlsx") := by
        simpa using h.symm
      rw [h2]; exact ⟨"export", rfl, Or.inl (by decide)⟩
    · rw [if_neg hf] at h
      have h2 : out = .export "powerpoint" (exportBaseFilename title filename ++ "-" ++ timestamp ++ ".pptx") := by
        simpa using h.symm
      rw [h2]; exact ⟨"export", rfl, Or.inl (by decide)⟩
  | unknown n =>
    left
    have h2 : out = .unknownTool n := by simpa [executeToolM] using h.symm
    rw [h2]
    exact ⟨rfl, Or.inr ⟨n, rfl⟩⟩

/-- Witness for C9 amended at a concrete chart call. -/
theorem c9_output_type_tags_witness :
    executeToolM (.generateChart "bar" "Revenue" "name" ["value"])
      = .ok (.chart "bar" "Revenue" "name" ["value"]) ∧
    ((typeField (.chart "bar" "Revenue" "name" ["value"]) = none ∧
      ((∃ q oc, (ToolCallReq.generateChart "bar" "Revenue" "name" ["value"]) = .searchDocuments q oc) ∨
        ∃ n, (ToolCallReq.generateChart "bar" "Revenue" "name" ["value"]) = .unknown n)) ∨
    (∃ t, typeField (.chart "bar" "Revenue" "name" ["value"]) = some t ∧
      (t ∈ allowedTypeTags ∨ t = "image_analysis"))) :=
  ⟨rfl, c9_output_type_tags (.generateChart "bar" "Revenue" "name" ["value"])
    (.chart "bar" "Revenue" "name" ["value"]) rfl⟩

/-! ## Claim C5 -/

/-- Unfolded step of the optimize while loop in terms of positional access
into the response supply. -/
theorem optimizeAux_succ (fuel : Nat) (report : String) (iters : Nat)
    (resps : List String) :
    optimizeAux (fuel + 1) report iters resps =
      (if (evaluateParse (resps.getD 0 "")).status = "PASS" then
        { optimizedReport := report, iterations := iters + 1
          finalScore := (evaluateParse (resps.getD 0 "")).scores }
      else
        optimizeAux fuel
          (if extractXml (resps.getD 1 "") "improved_report" = "" then report
           else extractXml (resps.getD 1 "") "improved_report")
          (iters + 1) (resps.drop 2)) := by
  cases resps with
  | nil => rfl
  | cons a rest =>
    cases rest with
    | nil => rfl
    | cons b rest2 => rfl

/-- Shifting the response supply by one round shifts the evaluation
positions by one. -/
theorem statusAt_drop2 (resps : List String) (i : Nat) :
    statusAt (resps.drop 2) i = statusAt resps (i + 1) := by
  rw [statusAt, statusAt]
  have h : (resps.drop 2).getD (2 * i) "" = resps.getD (2 * (i + 1)) "" := by
    rw [List.getD_eq_getElem?_getD, List.getD_eq_getElem?_getD, List.getElem?_drop]
    have h2 : 2 + 2 * i = 2 * (i + 1) := by omega
    rw [h2]
  rw [h]

/-- The optimize loop performs at most fuel additional iterations. -/
theorem optimizeAux_le :
    ∀ (fuel : Nat) (report : String) (iters : Nat) (resps : List String),
      (optimizeAux fuel report iters resps).iterations ≤ iters + fuel := by
  intro fuel
  induction fuel with
  | zero =>
    intro report iters resps
    cases resps <;> simp [optimizeAux]
  | succ fuel ih =>
    intro report iters resps
    rw [optimizeAux_succ]
    by_cases h : (evaluateParse (resps.getD 0 "")).status = "PASS"
    · simp only [h, if_pos]
      change iters + 1 ≤ iters + (fuel + 1)
      omega
    · rw [if_neg h]
      have := ih (if extractXml (resps.getD 1 "") "improved_report" = "" then report
        else extractXml (resps.getD 1 "") "improved_report") (iters + 1) (resps.drop 2)
      omega

/-- The optimize loop returns as soon as an evaluation passes: if the first
passing evaluation is the j-th one, the reported iteration count is j plus
one. -/
theorem optimizeAux_first_pass :
    ∀ (j fuel : Nat) (report : String) (iters : Nat) (resps : List String),
      j < fuel →
      (∀ i, i < j → statusAt resps i ≠ "PASS") →
      statusAt resps j = "PASS" →
      (optimizeAux fuel report iters resps).iterations = iters + j + 1 := by
  intro j
  induction j with
  | zero =>
    intro fuel report iters resps hj h2 h3
    obtain ⟨f, rfl⟩ : ∃ f, fuel = f + 1 := ⟨fuel - 1, by omega⟩
    rw [optimizeAux_succ]
    have h3x : (evaluateParse (resps.getD 0 "")).status = "PASS" := by
      have : 2 * 0 = 0 := rfl
      rw [statusAt, this] at h3
      exact h3
    simp only [h3x, if_pos]
  | succ j ih =>
    intro fuel report iters resps hj h2 h3
    obtain ⟨f, rfl⟩ : ∃ f, fuel = f + 1 := ⟨fuel - 1, by omega⟩
    rw [optimizeAux_succ]
    have h0 : (evaluateParse (resps.getD 0 "")).status ≠ "PASS" := by
      have hz := h2 0 (by omega)
      have : 2 * 0 = 0 := rfl
      rw [statusAt, this] at hz
      exact hz
    rw [if_neg h0]
    have hres := ih f (if extractXml (resps.getD 1 "") "improved_report" = "" then report
        else extractXml (resps.getD 1 "") "improved_report") (iters + 1) (resps.drop 2)
      (by omega)
      (fun i hi => by rw [statusAt_drop2]; exact h2 (i + 1) (by omega))
      (by rw [statusAt_drop2]; exact h3)
    omega

/-- When no evaluation within the cap passes, the loop uses all permitted
iterations and reports exactly the cap. -/
theorem optimizeAux_no_pass :
    ∀ (fuel : Nat) (report : String) (iters : Nat) (resps : List String),
      (∀ j, j < fuel → statusAt resps j ≠ "PASS") →
      (optimizeAux fuel report iters resps).iterations = iters + fuel := by
  intro fuel
  induction fuel with
  | zero =>
    intro report iters resps _
    cases resps <;> simp [optimizeAux]
  | succ fuel ih =>
    intro report iters resps h
    rw [optimizeAux_succ]
    have h0 : (evaluateParse (resps.getD 0 "")).status ≠ "PASS" := by
      have hz := h 0 (by omega)
      have : 2 * 0 = 0 := rfl
      rw [statusAt, this] at hz
      exact hz
    rw [if_neg h0]
    have := ih (if extractXml (resps.getD 1 "") "improved_report" = "" then report
        else extractXml (resps.getD 1 "") "improved_report") (iters + 1) (resps.drop 2)
      (fun j hj => by rw [statusAt_drop2]; exact h (j + 1) (by omega))
    omega

/-- C5: for every call to ReportEvaluator.optimize with cap k, the reported
iteration count never exceeds k; the loop stops at the first passing
evaluation, reporting its one-based index; and when no evaluation within
the cap passes, the loop runs and reports exactly k iterations before
returning the final report and final scores. -/
theorem c5_optimize_bounded_and_stops (report feedback : String) (k : Nat)
    (resps : List String) :
    (reportOptimize report feedback k resps).iterations ≤ k ∧
    (∀ j, j < k → (∀ i, i < j → statusAt resps i ≠ "PASS") →
      statusAt resps j = "PASS" →
      (reportOptimize report feedback k resps).iterations = j + 1) ∧
    ((∀ j, j < k → statusAt resps j ≠ "PASS") →
      (reportOptimize report feedback k resps).iterations = k) := by
  refine ⟨?_, ?_, ?_⟩
  · have := optimizeAux_le k report 0 resps
    simpa [reportOptimize] using this
  · intro j hj h2 h3
    have := optimizeAux_first_pass j k report 0 resps hj h2 h3
    simpa [reportOptimize] using this
  · intro h
    have := optimizeAux_no_pass k report 0 resps h
    simpa [reportOptimize] using this

/-- Witness for C5: with the default cap of three and a first evaluation
that passes, the loop is bounded by the cap and stops after one iteration. -/
theorem c5_optimize_bounded_and_stops_witness :
    (reportOptimize "draft" "fb" 3 [passEvalResp]).iterations ≤ 3 ∧
    statusAt [passEvalResp] 0 = "PASS" ∧
    (reportOptimize "draft" "fb" 3 [passEvalResp]).iterations = 1 :=
  ⟨(c5_optimize_bounded_and_stops "draft" "fb" 3 [passEvalResp]).1, by decide,
    (c5_optimize_bounded_and_stops "draft" "fb" 3 [passEvalResp]).2.1 0 (by omega)
      (fun i hi => absurd hi (Nat.not_lt_zero i)) (by decide)⟩

/-! ## Claim C6 -/

/-- When every worker call returns, the worker loop returns one
WorkerResult per subtask. -/
theorem runWorkers_length (workers : Nat → Except String String)
    (h : ∀ i, ∃ r, workers i = .ok r) :
    ∀ (tasks : List SubTask) (start : Nat),
      ∃ wrs, runWorkers workers tasks start = .ok wrs ∧ wrs.length = tasks.length := by
  intro tasks
  induction tasks with
  | nil => intro start; exact ⟨[], rfl, rfl⟩
  | cons st rest ih =>
    intro start
    obtain ⟨r, hr⟩ := h start
    obtain ⟨wrs, hw, hl⟩ := ih (start + 1)
    refine ⟨parseWorkerResponse st r :: wrs, ?_, by simp [hl]⟩
    simp [runWorkers, hr, hw]

/-- C6 counterexample: an orchestrator response decomposing into two
subtasks, with the first worker call succeeding and the second throwing,
makes the whole engine throw: analyze propagates the exception, returns no
WorkerResults at all, and produces no analysis-unavailable placeholder,
refuting the claim that the WorkerResult count always equals the SubTask
count with failed executions degraded to placeholders. -/
theorem c6_worker_throw_aborts_counterexample :
    (parseTasksXml ("<tasks>" ++ extractXml twoTaskResp "tasks" ++ "</tasks>")).length = 2 ∧
    analyze (.ok twoTaskResp) failingWorkers (.ok "") = .error "Request timed out" := by
  exact ⟨by decide, by decide⟩

/-- C6 amended: when every worker call returns (success of the external
calls), analyze returns exactly one WorkerResult per SubTask produced by
decomposition - a worker response missing the expected tags still yields a
result entry, so the count is preserved; but a worker call that throws
aborts the whole engine with the exception instead of degrading to a
placeholder. -/
theorem c6_worker_count_when_no_throw (orchResp synth : String)
    (workers : Nat → Except String String) (h : ∀ i, ∃ r, workers i = .ok r) :
    ∃ res, analyze (.ok orchResp) workers (.ok synth) = .ok res ∧
      res.workerResults.length
        = (parseTasksXml ("<tasks>" ++ extractXml orchResp "tasks" ++ "</tasks>")).length := by
  obtain ⟨wrs, hw, hl⟩ := runWorkers_length workers h
    (parseTasksXml ("<tasks>" ++ extractXml orchResp "tasks" ++ "</tasks>")) 0
  refine ⟨{ analysis := extractXml orchResp "analysis", workerResults := wrs
            synthesis := buildSynthesis synth }, ?_, by simpa using hl⟩
  simp [analyze, hw]

/-- Witness for C6 amended on the two-subtask response with workers that
always return. -/
theorem c6_worker_count_when_no_throw_witness :
    ∃ res, analyze (.ok twoTaskResp) okWorkers (.ok "") = .ok res ∧
      res.workerResults.length
        = (parseTasksXml ("<tasks>" ++ extractXml twoTaskResp "tasks" ++ "</tasks>")).length :=
  c6_worker_count_when_no_throw twoTaskResp "" okWorkers (fun _ => ⟨_, rfl⟩)

/-! ## Claim C3 -/

/-- C3 counterexample: a model response requesting one financial_calculation
call whose input lacks the values array makes the executor throw; dispatch
does not convert the exception into an error ToolResult: the full stream is
the thread event, the tool-start event, and a terminal error event, with no
tool_result event at all, and the loop never reaches the next model round
(whose plain-text answer never appears), refuting the claim that executor
exceptions are captured as error ToolResults with the loop continuing. -/
theorem c3_dispatch_propagates_counterexample :
    throwingExec fcToolUse = .error "TypeError: values is not an array" ∧
    routeEvents throwModel throwingExec
      = [.thread, .toolStart "financial_calculation" "",
         .error "TypeError: values is not an array"] :=
  ⟨rfl, by decide⟩

/-- C3 amended: executeTool has no try-catch, so an exception thrown by an
executor propagates out of dispatch: the round stops at the failing call
after its tool-start event, no tool_result event is emitted for it, and the
loop terminates with a single error event instead of requesting a further
model response.  (Most executors catch their own errors internally and
return structured error-tagged results, which do flow through tool_result;
this theorem is about exceptions that escape the executor.) -/
theorem c3_executor_throw_terminates_loop
    (exec : ToolUse → Except String ToolOutView) (tu : ToolUse) (msg : String)
    (h : exec tu = .error msg) (rest : List ToolUse)
    (model : Nat → Except String ModelResp) (fuel iter : Nat) (r : ModelResp)
    (hm : model iter = .ok r) (htu : r.toolUses = tu :: rest) :
    toolRound exec (tu :: rest) = ([.toolStart tu.name tu.input], [], some msg) ∧
    loopEvents model exec (fuel + 1) iter
      = [.toolStart tu.name tu.input, .error msg] := by
  have h1 := toolRound_throw exec tu msg h rest
  refine ⟨h1, ?_⟩
  have hne : r.toolUses ≠ [] := by rw [htu]; simp
  have hthrow : (toolRound exec r.toolUses).2.2 = some msg := by rw [htu, h1]
  rw [loopEvents_step_throw fuel hm hne hthrow, htu, h1]
  rfl

/-- Witness for C3 amended at the concrete throwing calculation call. -/
theorem c3_executor_throw_terminates_loop_witness :
    throwingExec fcToolUse = .error "TypeError: values is not an array" ∧
    (toolRound throwingExec [fcToolUse]
        = ([.toolStart fcToolUse.name fcToolUse.input], [],
           some "TypeError: values is not an array") ∧
      loopEvents throwModel throwingExec 5 0
        = [.toolStart fcToolUse.name fcToolUse.input,
           .error "TypeError: values is not an array"]) :=
  ⟨rfl, c3_executor_throw_terminates_loop throwingExec fcToolUse _ rfl []
      throwModel 4 0 _ rfl rfl⟩

/-! ## Claim C8 -/

/-- C8 counterexample: a model response carrying two tool calls where the
first executor throws runs only the first call: the round events hold a
single tool-start event, the second call is never started or executed, and
no feedback entries are built at all, refuting the unconditional claim that
all ToolCalls of a response are executed with matching result order. -/
theorem c8_throw_skips_remaining_counterexample :
    (toolRound throwingExec [fcToolUse, tableToolUse]).1
      = [.toolStart "financial_calculation" ""] ∧
    (toolRound throwingExec [fcToolUse, tableToolUse]).2.1 = [] :=
  ⟨by decide, by decide⟩

/-- C8 amended: provided no executor throws, every ToolCall of the model
response is executed - the tool-start events are exactly one per call, in
call order - and the ToolResult feedback entries sent back to the model
carry the tool-use ids in exactly the order the model emitted the calls. -/
theorem c8_feedback_order_matches_calls
    (exec : ToolUse → Except String ToolOutView) (tus : List ToolUse)
    (h : ∀ tu ∈ tus, ∃ o, exec tu = .ok o) :
    (toolRound exec tus).2.1.map Prod.fst = tus.map ToolUse.id ∧
    (toolRound exec tus).1.filter isStartEv
      = tus.map (fun tu => .toolStart tu.name tu.input) ∧
    (toolRound exec tus).2.2 = none :=
  ⟨toolRound_feedback_ids exec tus h, toolRound_start_events exec tus h,
    toolRound_no_throw exec tus h⟩

/-- Witness for C8 amended on a two-call round whose executors return. -/
theorem c8_feedback_order_matches_calls_witness :
    (toolRound capExec [fcToolUse, tableToolUse]).2.1.map Prod.fst
      = [fcToolUse, tableToolUse].map ToolUse.id ∧
    (toolRound capExec [fcToolUse, tableToolUse]).1.filter isStartEv
      = [fcToolUse, tableToolUse].map (fun tu => .toolStart tu.name tu.input) ∧
    (toolRound capExec [fcToolUse, tableToolUse]).2.2 = none :=
  c8_feedback_order_matches_calls capExec [fcToolUse, tableToolUse]
    (fun _ _ => ⟨_, rfl⟩)

/-! ## Claim C1 -/

/-- C1 counterexample: a run in which the model returns a tool call on every
one of the five permitted rounds and every executor returns ends with zero
terminal events: no error event (in particular no max-iterations error) and
no done event is ever emitted, refuting the claim that the cap case
surfaces a max-iterations-exceeded error to the caller. -/
theorem c1_cap_run_counterexample :
    (∀ i, i < maxIterations → ∃ r, capModel i = .ok r ∧ r.toolUses ≠ []) ∧
    countTerminal (routeEvents capModel capExec) = 0 :=
  ⟨fun _ _ => ⟨_, rfl, by decide⟩, by decide⟩

/-- C1 amended: when the model keeps returning ToolCalls on all
max-iterations rounds (and the executors return), the while condition goes
false and streamFinanceChat returns without firing any callback: the stream
carries no terminal event at all - neither an error nor a completion - so
the loop ends silently rather than surfacing a max-iterations error. -/
theorem c1_cap_silent_termination (model : Nat → Except String ModelResp)
    (exec : ToolUse → Except String ToolOutView)
    (h : ∀ i, i < maxIterations → toolsEveryRound model exec i) :
    countTerminal (routeEvents model exec) = 0 := by
  rw [routeEvents]
  have hall := loopEvents_all_tool model exec maxIterations 0
    (fun i _ h2 => h i (by omega))
  rw [countTerminal, List.length_eq_zero, List.filter_eq_nil_iff]
  intro e he
  rcases List.mem_cons.mp he with rfl | he
  · simp [isTerminal]
  · simp [isTerminal_false_of_isToolEv (hall e he)]

/-- Witness for C1 amended at the concrete all-tool-calls run. -/
theorem c1_cap_silent_termination_witness :
    (∀ i, i < maxIterations → toolsEveryRound capModel capExec i) ∧
    countTerminal (routeEvents capModel capExec) = 0 :=
  ⟨fun _ _ => ⟨_, rfl, by decide, fun _ _ => ⟨_, rfl⟩⟩,
    c1_cap_silent_termination capModel capExec
      (fun _ _ => ⟨_, rfl, by decide, fun _ _ => ⟨_, rfl⟩⟩)⟩

/-! ## Claim C7 -/

/-- C7 counterexample: the all-tool-calls cap run emits zero terminal
events, not exactly one, refuting the claimed protocol that every request
ends with exactly one terminal completion-or-error event. -/
theorem c7_missing_terminal_counterexample :
    countTerminal (routeEvents capModel capExec) ≠ 1 ∧
    countTerminal (routeEvents capModel capExec) = 0 :=
  ⟨by decide, by decide⟩

/-- C7 amended: every stream starts with the thread-ack event, followed by
tool round-trip events (tool-start, tool-result, canvas, citations) and
then a tail that is either empty (the silent cap exit, with no terminal
event), a single terminal error event, or the text-delta events of the
final answer followed by a single done event; consequently at most one
terminal event is emitted and no event of any kind follows it. -/
theorem c7_stream_event_shape (model : Nat → Except String ModelResp)
    (exec : ToolUse → Except String ToolOutView) :
    (∃ B T, routeEvents model exec = .thread :: (B ++ T) ∧
      (∀ e ∈ B, isToolEv e = true) ∧
      (T = [] ∨ (∃ s, T = [StreamEv.error s]) ∨
        ∃ cs : List Char, T = cs.map StreamEv.text ++ [StreamEv.done])) ∧
    countTerminal (routeEvents model exec) ≤ 1 := by
  obtain ⟨B, T, hBT, hB, hT⟩ := loopEvents_shape model exec maxIterations 0
  constructor
  · exact ⟨B, T, by rw [routeEvents, hBT], hB, hT⟩
  · rw [routeEvents, hBT]
    have hthread : countTerminal (StreamEv.thread :: (B ++ T)) = countTerminal (B ++ T) := by
      rw [countTerminal, countTerminal, List.filter_cons]
      simp [isTerminal]
    rw [hthread, countTerminal, List.filter_append]
    have hBzero : B.filter isTerminal = [] := by
      rw [List.filter_eq_nil_iff]
      intro e he
      simp [isTerminal_false_of_isToolEv (hB e he)]
    rw [hBzero, List.nil_append]
    rcases hT with rfl | ⟨s, rfl⟩ | ⟨cs, rfl⟩
    · simp
    · simp [isTerminal]
    · have h1 := countTerminal_text_done cs
      rw [countTerminal] at h1
      omega

end AskFinance

